import Mathlib

/-!
Shallow embedding of the automated code-review Azure Function
(`src/functions/pullRequestTrigger.ts` — current revision, the one whose
imports match `src/services/azureDevOpsService.ts` and
`src/services/codeReviewService.ts` — plus those two service modules).

External network calls (Azure DevOps Git API, OpenRouter chat completion)
are modelled by an explicit environment `Env` that fixes the outcome of each
remote call; a thrown JavaScript error is modelled as `Except.error` with the
error message, and JavaScript `undefined`/`null` as `Option.none`.
Each operation additionally reports which network calls it performed
(`Effects`), so that "no call was made / nothing was posted" claims are
statements about the returned effect record.
-/

set_option autoImplicit false

deriving instance DecidableEq for Except

namespace CodeReview

/-- Webhook payload: `payload.resource.repository.project`. -/
structure PayloadProject where
  id : String
deriving DecidableEq, Repr

/-- Webhook payload: `payload.resource.repository`. -/
structure PayloadRepository where
  id : String
  project : PayloadProject
deriving DecidableEq, Repr

/-- Webhook payload: `payload.resource`. -/
structure PayloadResource where
  pullRequestId : Nat
  repository : PayloadRepository
deriving DecidableEq, Repr

/-- Webhook payload (`PullRequestPayload` in `pullRequestTrigger.ts`). -/
structure PullRequestPayload where
  eventType : String
  resource : PayloadResource
deriving DecidableEq, Repr

/-- The `repository` field of a fetched `GitPullRequest`; only the fields the
program reads are modelled.  `id` is optional and may be the empty string,
matching the JavaScript truthiness test `!pullRequest.repository.id`. -/
structure GitRepository where
  id : Option String
deriving DecidableEq, Repr

/-- A fetched pull request (`GitInterfaces.GitPullRequest`), restricted to the
fields the program reads. -/
structure GitPullRequest where
  pullRequestId : Option Nat
  repository : Option GitRepository
  title : Option String
  description : Option String
deriving DecidableEq, Repr

/-- A raw comment inside a fetched thread (`GitInterfaces.Comment`), restricted
to the fields the program reads.  `commentType` is the numeric
`GitInterfaces.CommentType` enum: 0 unknown, 1 text, 2 codeChange, 3 system.
Dates are epoch milliseconds. -/
structure Comment where
  id : Option Nat
  content : Option String
  commentType : Option Nat
  isDeleted : Option Bool
  authorDisplayName : Option String
  publishedDate : Option Nat
  lastUpdatedDate : Option Nat
  parentCommentId : Option Nat
deriving DecidableEq, Repr

/-- A fetched comment thread (`GitInterfaces.GitPullRequestCommentThread`),
restricted to the fields the program reads.  `systemCommentTypeProperty` is
the value of `thread.properties['System.CommentType'].value` when that
property exists, `none` when `properties` or the key is absent.
`threadStatus` is the numeric `CommentThreadStatus` enum (0 = unknown). -/
structure CommentThread where
  id : Option Nat
  comments : List Comment
  systemCommentTypeProperty : Option String
  threadContextFilePath : Option String
  threadStatus : Option Nat
deriving DecidableEq, Repr

/-- The record assembled by `getPullRequestComments`
(interface `PullRequestComment` in `azureDevOpsService.ts`). -/
structure PullRequestComment where
  id : Nat
  content : String
  author : String
  createdDate : Nat
  lastUpdatedDate : Nat
  commentStatus : Option String
  filePath : Option String
  threadId : Nat
  parentCommentId : Option Nat
deriving DecidableEq, Repr

/-- One changed file as assembled by `getPullRequestChanges`
(interface `FileChange` in `azureDevOpsService.ts`).  `changeType` is the
numeric `VersionControlChangeType` value (16 = delete, 0 = none). -/
structure FileChange where
  fileName : String
  changeContent : String
  changeType : Nat
  originalPath : Option String
  language : Option String
deriving DecidableEq, Repr

/-- One entry of `gitApi.getPullRequestIterations`; only its `id` is read. -/
structure Iteration where
  id : Option Nat
deriving DecidableEq, Repr

/-- One entry of `changes.changeEntries` from
`gitApi.getPullRequestIterationChanges`.  `itemPath` flattens
`change.item.path` (`none` when `item` or `item.path` is absent). -/
structure ChangeEntry where
  itemPath : Option String
  objectId : Option String
  changeType : Option Nat
  sourceServerItem : Option String
deriving DecidableEq, Repr

/-- The `message` object of one OpenRouter completion choice. -/
structure LlmMessage where
  content : Option String
deriving DecidableEq, Repr

/-- One element of `response.data.choices`. -/
structure LlmChoice where
  message : Option LlmMessage
deriving DecidableEq, Repr

/-- The response body (`response.data`); `choices` is `none` when the body is
malformed and has no `choices` array. -/
structure LlmData where
  choices : Option (List LlmChoice)
deriving DecidableEq, Repr

/-- An HTTP response from the completion endpoint as seen through axios:
a status code and an optional parsed body. -/
structure LlmResponse where
  status : Nat
  data : Option LlmData
deriving DecidableEq, Repr

/-- Options accepted by `addCommentToPullRequest`
(interface `AddCommentOptions` in `azureDevOpsService.ts`). -/
structure AddCommentOptions where
  content : Option String
  filePath : Option String
  lineNumber : Option Nat
  parentCommentId : Option Nat
  threadId : Option Nat
deriving DecidableEq, Repr

/-- The `commentContent : string | AddCommentOptions` union parameter of
`addCommentToPullRequest`. -/
inductive CommentContent where
  | str (s : String)
  | options (o : AddCommentOptions)
deriving DecidableEq, Repr

/-- Network calls performed during a run.  Reads and writes toward the
repository provider are tracked separately; `posts` records the comment
contents handed to the thread/comment creation endpoints (the only write
operations in the program). -/
structure Effects where
  prFetches : Nat
  threadFetches : Nat
  iterationFetches : Nat
  changeFetches : Nat
  blobFetches : Nat
  threadGets : Nat
  llmCalls : Nat
  posts : List String
deriving DecidableEq, Repr

/-- The all-zero effect record: no network call of any kind. -/
def Effects.zero : Effects :=
  { prFetches := 0, threadFetches := 0, iterationFetches := 0, changeFetches := 0
    blobFetches := 0, threadGets := 0, llmCalls := 0, posts := [] }

/-- Environment fixing the outcome of every remote call a run can make.
A field of type `Except String _` models a call that may throw. -/
structure Env where
  pullRequestResult : Except String GitPullRequest
  threadsResult : Except String (List CommentThread)
  now : Nat
  iterationsResult : Except String (List Iteration)
  changesResult : Except String (Option (List ChangeEntry))
  blob : String → Except String String
  llm : String → Except String LlmResponse
  threadLookup : Nat → Except String (Option Unit)
  createThreadResult : Except String Unit
  createCommentResult : Except String Unit

/-- The `HttpResponseInit` value produced by the handler, together with the
network calls the run performed. -/
structure HandlerResult where
  status : Nat
  body : String
  effects : Effects
deriving DecidableEq, Repr

/-! ### File-language identification (`azureDevOpsService.ts`) -/

/-- The `LANGUAGE_EXTENSIONS` table of `azureDevOpsService.ts`, verbatim. -/
def LANGUAGE_EXTENSIONS : List (String × String) :=
  [(".js", "JavaScript"), (".jsx", "JavaScript (React)"),
   (".ts", "TypeScript"), (".tsx", "TypeScript (React)"),
   (".html", "HTML"), (".css", "CSS"), (".scss", "SCSS"), (".sass", "Sass"),
   (".less", "Less"),
   (".c", "C"), (".cpp", "C++"), (".h", "C/C++ Header"), (".hpp", "C++ Header"),
   (".cs", "C#"),
   (".java", "Java"), (".kt", "Kotlin"), (".groovy", "Groovy"),
   (".py", "Python"), (".ipynb", "Jupyter Notebook"),
   (".rb", "Ruby"), (".erb", "Ruby (ERB)"),
   (".php", "PHP"), (".go", "Go"), (".rs", "Rust"), (".swift", "Swift"),
   (".sh", "Shell"), (".bash", "Bash"), (".zsh", "Zsh"), (".ps1", "PowerShell"),
   (".bat", "Batch"), (".cmd", "Batch"),
   (".json", "JSON"), (".xml", "XML"), (".yaml", "YAML"), (".yml", "YAML"),
   (".toml", "TOML"), (".ini", "INI"), (".conf", "Configuration"),
   (".md", "Markdown"), (".markdown", "Markdown"), (".rst", "reStructuredText"),
   (".sql", "SQL"),
   (".r", "R"), (".dart", "Dart"), (".fs", "F#"), (".elm", "Elm"),
   (".clj", "Clojure"), (".ex", "Elixir"), (".exs", "Elixir"),
   (".erl", "Erlang"), (".hs", "Haskell"), (".lua", "Lua"),
   (".pl", "Perl"), (".pm", "Perl"), (".scala", "Scala"),
   (".vb", "Visual Basic")]

/-- Node's `path.extname`: the substring of the basename from its last dot,
empty when the basename has no dot after its first character.  Trailing
slashes are ignored and a basename made only of dots has no extension. -/
def extname (p : String) : String :=
  let cs := p.toList
  let noTrail := (cs.reverse.dropWhile (fun c => c = '/')).reverse
  let base := (noTrail.reverse.takeWhile (fun c => c ≠ '/')).reverse
  match base with
  | [] => ""
  | _ :: rest =>
    if base.all (fun c => c = '.') then ""
    else if rest.contains '.' then
      String.mk ('.' :: (rest.reverse.takeWhile (fun c => c ≠ '.')).reverse)
    else ""

/-- JavaScript `String.prototype.toLowerCase` on extension strings, modelled
characterwise (ASCII letters are lowered, everything else is unchanged). -/
def toLowerStr (s : String) : String :=
  String.mk (s.toList.map Char.toLower)

/-- Result type of `identifyFileLanguage`. -/
structure LanguageInfo where
  language : Option String
  isProgrammingFile : Bool
deriving DecidableEq, Repr

/-- The `identifyFileLanguage` function of `azureDevOpsService.ts`: look up the
lowercased extension in `LANGUAGE_EXTENSIONS`. -/
def identifyFileLanguage (filePath : String) : LanguageInfo :=
  if filePath = "" then { language := none, isProgrammingFile := false }
  else
    let extension := toLowerStr (extname filePath)
    match LANGUAGE_EXTENSIONS.lookup extension with
    | some lang => { language := some lang, isProgrammingFile := true }
    | none => { language := none, isProgrammingFile := false }

/-! ### Pull-request validation shared by the service functions -/

/-- JavaScript truthiness of `!pullRequest.repository || !pullRequest.repository.id`:
the guard that throws "Pull request does not have a valid repository". -/
def repositoryInvalid (pr : GitPullRequest) : Bool :=
  match pr.repository with
  | none => true
  | some r =>
    match r.id with
    | none => true
    | some s => s = ""

/-- JavaScript truthiness of `!pullRequest.pullRequestId` (0 is falsy):
the guard that throws "Pull request does not have a valid ID". -/
def pullRequestIdInvalid (pr : GitPullRequest) : Bool :=
  match pr.pullRequestId with
  | none => true
  | some n => n = 0

/-! ### getPullRequestComments (`azureDevOpsService.ts`) -/

/-- Thread filter of `getPullRequestComments`: skip threads whose
`System.CommentType` property has value `"system"`. -/
def isSystemThread (t : CommentThread) : Bool :=
  t.systemCommentTypeProperty = some "system"

/-- JavaScript `cond ? new Date(d) : new Date()`: a missing or falsy date
becomes the current time. -/
def dateOrNow (d : Option Nat) (now : Nat) : Nat :=
  match d with
  | none => now
  | some n => if n = 0 then now else n

/-- The per-comment body of the `getPullRequestComments` loop: `none` when the
comment is skipped (system kind, deleted, or without content), otherwise the
`PullRequestComment` record pushed for it. -/
def convertComment (now : Nat) (t : CommentThread) (c : Comment) :
    Option PullRequestComment :=
  if c.commentType = some 3 then none
  else if c.isDeleted = some true then none
  else
    match c.content with
    | none => none
    | some s =>
      if s = "" then none
      else
        some
          { id := c.id.getD 0
            content := s
            author :=
              match c.authorDisplayName with
              | none => "Unknown"
              | some a => if a = "" then "Unknown" else a
            createdDate := dateOrNow c.publishedDate now
            lastUpdatedDate := dateOrNow c.lastUpdatedDate now
            commentStatus :=
              match t.threadStatus with
              | none => none
              | some n => if n = 0 then none else some (toString n)
            filePath := t.threadContextFilePath
            threadId := t.id.getD 0
            parentCommentId := c.parentCommentId }

/-- The double loop of `getPullRequestComments`: visit each non-system,
non-empty thread in order and collect every comment `convertComment` keeps. -/
def collectComments (now : Nat) (threads : List CommentThread) :
    List PullRequestComment :=
  threads.flatMap fun t =>
    if isSystemThread t then []
    else if t.comments.isEmpty then []
    else t.comments.filterMap (convertComment now t)

/-- Comparator of the final `comments.sort((a, b) => a.createdDate - b.createdDate)`:
ascending by creation date.  JavaScript's stable sort is modelled by a
stable insertion sort with this relation. -/
def commentOrder (a b : PullRequestComment) : Prop :=
  a.createdDate ≤ b.createdDate

instance : DecidableRel commentOrder := fun a b =>
  inferInstanceAs (Decidable (a.createdDate ≤ b.createdDate))

instance : IsTotal PullRequestComment commentOrder :=
  ⟨fun a b => Nat.le_total a.createdDate b.createdDate⟩

instance : IsTrans PullRequestComment commentOrder :=
  ⟨fun _ _ _ => Nat.le_trans⟩

/-- The `getPullRequestComments` function of `azureDevOpsService.ts`.
Returns the result (or the thrown error) together with the number of
`getThreads` calls performed. -/
def getPullRequestComments (env : Env) (pr : GitPullRequest) :
    Except String (List PullRequestComment) × Nat :=
  if repositoryInvalid pr then
    (.error "Pull request does not have a valid repository", 0)
  else if pullRequestIdInvalid pr then
    (.error "Pull request does not have a valid ID", 0)
  else
    match env.threadsResult with
    | .error e => (.error e, 1)
    | .ok threads =>
      if threads.isEmpty then (.ok [], 1)
      else (.ok ((collectComments env.now threads).insertionSort commentOrder), 1)

/-! ### getPullRequestChanges (`azureDevOpsService.ts`) -/

/-- The numeric value of `VersionControlChangeType.Delete`. -/
def deleteChangeType : Nat := 16

/-- The body of the `for (const change of changes.changeEntries)` loop for one
entry: the `FileChange` pushed for it (`none` when the entry is skipped),
and the number of blob-content fetches attempted (0 or 1).  A failed blob
fetch is caught, logged and the entry is skipped. -/
def processChangeEntry (env : Env) (ch : ChangeEntry) : Option FileChange × Nat :=
  match ch.itemPath with
  | none => (none, 0)
  | some p =>
    if p = "" then (none, 0)
    else
      let info := identifyFileLanguage p
      if ¬ info.isProgrammingFile then (none, 0)
      else if ch.changeType = some deleteChangeType then
        (some { fileName := p, changeContent := ""
                changeType := ch.changeType.getD 0
                originalPath := ch.sourceServerItem
                language := info.language }, 0)
      else
        match env.blob (ch.objectId.getD "") with
        | .error _ => (none, 1)
        | .ok content =>
          (some { fileName := p, changeContent := content
                  changeType := ch.changeType.getD 0
                  originalPath := ch.sourceServerItem
                  language := info.language }, 1)

/-- The whole change-entry loop: kept `FileChange`s in order, plus the total
number of blob fetches attempted. -/
def processChangeEntries (env : Env) : List ChangeEntry → List FileChange × Nat
  | [] => ([], 0)
  | ch :: rest =>
    let (fc, n) := processChangeEntry env ch
    let (fcs, m) := processChangeEntries env rest
    (match fc with
     | none => fcs
     | some f => f :: fcs, n + m)

/-- The `getPullRequestChanges` function of `azureDevOpsService.ts`.
Returns the result (or the thrown error) together with the numbers of
iteration fetches, iteration-change fetches and blob fetches performed. -/
def getPullRequestChanges (env : Env) (pr : GitPullRequest) :
    Except String (List FileChange) × (Nat × Nat × Nat) :=
  if repositoryInvalid pr then
    (.error "Pull request does not have a valid repository", (0, 0, 0))
  else if pullRequestIdInvalid pr then
    (.error "Pull request does not have a valid ID", (0, 0, 0))
  else
    match env.iterationsResult with
    | .error e => (.error e, (1, 0, 0))
    | .ok iterations =>
      match iterations with
      | [] => (.error "No iterations found for the pull request", (1, 0, 0))
      | i :: is =>
        let latest := (i :: is).getLast (by simp)
        match latest.id with
        | none => (.error "Latest iteration does not have a valid ID", (1, 0, 0))
        | some iid =>
          if iid = 0 then
            (.error "Latest iteration does not have a valid ID", (1, 0, 0))
          else
            match env.changesResult with
            | .error e => (.error e, (1, 1, 0))
            | .ok none => (.ok [], (1, 1, 0))
            | .ok (some entries) =>
              let (fcs, nb) := processChangeEntries env entries
              (.ok fcs, (1, 1, nb))

/-! ### doCodeReview (`codeReviewService.ts`, current revision) -/

/-- JavaScript template interpolation of a possibly-undefined string. -/
def optStr : Option String → String
  | some s => s
  | none => "undefined"

/-- JavaScript `pullRequest.description || 'No description provided'`. -/
def descriptionOrDefault : Option String → String
  | none => "No description provided"
  | some s => if s = "" then "No description provided" else s

/-- The per-file block appended by the `changes.forEach` loop of
`prepareCodeReviewPrompt`.  The loop guard is `language != "Unknown"`, and
the `index` variable is initialised to 1 and never incremented, so every
block is numbered `File 1`. -/
def fileBlock (f : FileChange) : String :=
  if f.language = some "Unknown" then ""
  else
    "File 1: " ++ f.fileName ++ " (" ++ optStr f.language ++ ")\n" ++
    "<ChangeContent>\n" ++ f.changeContent ++ "</ChangeContent>\n\n"

/-- Fixed instruction block closing the prompt. -/
def promptFooter : String :=
  "\nPlease provide a comprehensive code review according to the language of the code with the following sections:\n1. Overall Assessment\n2. Code Quality\n3. Potential Issues\n4. Security Concerns\n5. Specific Recommendations\n\nGive the developer some encouragement at the end of the review.\n\nFormat your review for readability in Azure DevOps comments."

/-- The `changes.forEach` loop of `prepareCodeReviewPrompt`: sequential string
appends, one `fileBlock` per change. -/
def fileBlocks : List FileChange → String
  | [] => ""
  | f :: fs => fileBlock f ++ fileBlocks fs

/-- The `prepareCodeReviewPrompt` function of `codeReviewService.ts`. -/
def prepareCodeReviewPrompt (pr : GitPullRequest) (changes : List FileChange) :
    String :=
  "Perform a thorough code review focusing on best practices, potential bugs, security issues, and performance optimizations.\n\n" ++
  "Pull Request Title: " ++ optStr pr.title ++ "\n" ++
  "Description: " ++ descriptionOrDefault pr.description ++ "\n\n" ++
  "Files changed (" ++ toString changes.length ++ "):\n\n" ++
  fileBlocks changes ++
  promptFooter

/-- The `doCodeReview` function of `codeReviewService.ts`.  Returns the review
text together with the number of completion requests issued.  The function
is total with result type `String`: every failure of the completion call
(thrown request, non-200 status, missing body, missing or empty `choices`)
is caught and becomes the empty string, exactly as the `try`/`catch` in the
source. -/
def doCodeReview (env : Env) (pr : GitPullRequest) (changes : List FileChange) :
    String × Nat :=
  if changes.length = 0 then ("", 0)
  else
    match env.llm (prepareCodeReviewPrompt pr changes) with
    | .error _ => ("", 1)
    | .ok r =>
      if r.status ≠ 200 then ("", 1)
      else
        match r.data with
        | none => ("", 1)
        | some d =>
          match d.choices with
          | none => ("", 1)
          | some [] => ("", 1)
          | some (c :: _) => ((c.message.bind fun m => m.content).getD "", 1)

/-! ### addCommentToPullRequest (`azureDevOpsService.ts`) -/

/-- The `addCommentToPullRequest` function of `azureDevOpsService.ts`.
Created thread/comment objects are abstracted to `Unit`; the returned
triple is (result or thrown error, number of `getPullRequestThread` reads,
contents handed to a creation endpoint).  `options.threadId` is subject to
JavaScript truthiness, so a `threadId` of 0 takes the new-thread branch. -/
def addCommentToPullRequest (env : Env) (pr : GitPullRequest)
    (commentContent : CommentContent) :
    Except String (Option Unit) × Nat × List String :=
  if repositoryInvalid pr then
    (.error "Pull request does not have a valid repository", 0, [])
  else if pullRequestIdInvalid pr then
    (.error "Pull request does not have a valid ID", 0, [])
  else
    let options : AddCommentOptions :=
      match commentContent with
      | .str s =>
        { content := some s, filePath := none, lineNumber := none
          parentCommentId := none, threadId := none }
      | .options o => o
    match options.content with
    | none => (.ok none, 0, [])
    | some s =>
      if s = "" then (.ok none, 0, [])
      else
        match options.threadId with
        | some tid =>
          if tid = 0 then
            match env.createThreadResult with
            | .error e => (.error e, 0, [s])
            | .ok _ => (.ok (some ()), 0, [s])
          else
            match env.threadLookup tid with
            | .error e => (.error e, 1, [])
            | .ok none =>
              (.error ("Thread with ID " ++ toString tid ++ " not found"), 1, [])
            | .ok (some _) =>
              match env.createCommentResult with
              | .error e => (.error e, 1, [s])
              | .ok _ => (.ok (some ()), 1, [s])
        | none =>
          match env.createThreadResult with
          | .error e => (.error e, 0, [s])
          | .ok _ => (.ok (some ()), 0, [s])

/-! ### The webhook handler (`pullRequestTrigger.ts`, current revision) -/

/-- Body prefix of the 500 response built in the handler's `catch`. -/
def errorBody (e : String) : String :=
  "Error processing pull request: " ++ e

/-- The `pullRequestTrigger` handler (current revision: fetch the pull
request, fetch the filtered comments, block when any comment exists, fetch
the changes, generate the review, post it when non-empty). -/
def pullRequestTrigger (env : Env) (payload : PullRequestPayload) :
    HandlerResult :=
  if payload.eventType ≠ "git.pullrequest.created" then
    { status := 200
      body := "Event ignored - not a pull request creation event"
      effects := Effects.zero }
  else
    match env.pullRequestResult with
    | .error e =>
      { status := 500, body := errorBody e
        effects := { Effects.zero with prFetches := 1 } }
    | .ok pr =>
      match getPullRequestComments env pr with
      | (.error e, tf) =>
        { status := 500, body := errorBody e
          effects := { Effects.zero with prFetches := 1, threadFetches := tf } }
      | (.ok comments, tf) =>
        if comments.length > 0 then
          { status := 200
            body := "Pull request already has text comments, skipping code review"
            effects := { Effects.zero with prFetches := 1, threadFetches := tf } }
        else
          match getPullRequestChanges env pr with
          | (.error e, (itf, cf, bf)) =>
            { status := 500, body := errorBody e
              effects :=
                { prFetches := 1, threadFetches := tf, iterationFetches := itf
                  changeFetches := cf, blobFetches := bf, threadGets := 0
                  llmCalls := 0, posts := [] } }
          | (.ok changes, (itf, cf, bf)) =>
            let (codeReviewResult, lc) := doCodeReview env pr changes
            if codeReviewResult ≠ "" then
              match addCommentToPullRequest env pr (.str codeReviewResult) with
              | (.error e, tg, ps) =>
                { status := 500, body := errorBody e
                  effects :=
                    { prFetches := 1, threadFetches := tf, iterationFetches := itf
                      changeFetches := cf, blobFetches := bf, threadGets := tg
                      llmCalls := lc, posts := ps } }
              | (.ok _, tg, ps) =>
                { status := 200
                  body := "Code review completed and added as a comment"
                  effects :=
                    { prFetches := 1, threadFetches := tf, iterationFetches := itf
                      changeFetches := cf, blobFetches := bf, threadGets := tg
                      llmCalls := lc, posts := ps } }
            else
              { status := 200, body := "No changes to review"
                effects :=
                  { prFetches := 1, threadFetches := tf, iterationFetches := itf
                    changeFetches := cf, blobFetches := bf, threadGets := 0
                    llmCalls := lc, posts := [] } }

/-! ### Concrete fixtures used by witnesses and counterexamples -/

/-- A well-formed "pull request created" webhook payload. -/
def payloadCreated : PullRequestPayload :=
  { eventType := "git.pullrequest.created"
    resource := { pullRequestId := 42, repository := { id := "repo-1", project := { id := "proj-1" } } } }

/-- A webhook payload for a different event type. -/
def payloadUpdated : PullRequestPayload :=
  { payloadCreated with eventType := "git.pullrequest.updated" }

/-- A valid fetched pull request. -/
def samplePr : GitPullRequest :=
  { pullRequestId := some 42
    repository := some { id := some "repo-1" }
    title := some "Fix off-by-one"
    description := some "Adjust loop bound" }

/-- A change entry for a TypeScript file. -/
def tsEntry : ChangeEntry :=
  { itemPath := some "/src/a.ts", objectId := some "oidA"
    changeType := some 2, sourceServerItem := none }

/-- A change entry for a second TypeScript file. -/
def tsEntryB : ChangeEntry :=
  { itemPath := some "/src/b.ts", objectId := some "oidB"
    changeType := some 2, sourceServerItem := none }

/-- A change entry for a Markdown file. -/
def mdEntry : ChangeEntry :=
  { itemPath := some "/docs/b.md", objectId := some "oidM"
    changeType := some 1, sourceServerItem := none }

/-- A change entry for a lockfile, whose extension is not in the table. -/
def lockEntry : ChangeEntry :=
  { itemPath := some "/yarn.lock", objectId := some "oidL"
    changeType := some 1, sourceServerItem := none }

/-- A successful completion response with the given review text. -/
def okLlm (s : String) : LlmResponse :=
  { status := 200
    data := some { choices := some [{ message := some { content := some s } }] } }

/-- A baseline environment where every remote call succeeds: no comment
threads, one iteration, one TypeScript change, and a completion that
returns "Great work". -/
def baseEnv : Env :=
  { pullRequestResult := .ok samplePr
    threadsResult := .ok []
    now := 1000
    iterationsResult := .ok [{ id := some 7 }]
    changesResult := .ok (some [tsEntry])
    blob := fun _ => .ok "let x = 1;"
    llm := fun _ => .ok (okLlm "Great work")
    threadLookup := fun _ => .ok none
    createThreadResult := .ok ()
    createCommentResult := .ok () }

/-- A comment of kind text (1), explicitly not deleted, but whose `content`
field is absent — the shape on which claim C1 fails. -/
def emptyTextComment : Comment :=
  { id := some 10, content := none, commentType := some 1, isDeleted := some false
    authorDisplayName := some "Alice", publishedDate := some 500
    lastUpdatedDate := some 500, parentCommentId := none }

/-- A comment of kind text (1), not deleted, with non-empty content. -/
def humanComment : Comment :=
  { id := some 11, content := some "please fix naming", commentType := some 1
    isDeleted := some false, authorDisplayName := some "Alice"
    publishedDate := some 600, lastUpdatedDate := some 600
    parentCommentId := none }

/-- A system-kind comment (kind 3). -/
def systemComment : Comment :=
  { id := some 12, content := some "Status changed", commentType := some 3
    isDeleted := some false, authorDisplayName := some "Bot"
    publishedDate := some 400, lastUpdatedDate := some 400
    parentCommentId := none }

/-- A plain (non-system) thread holding the given comments. -/
def mkThread (cs : List Comment) : CommentThread :=
  { id := some 1, comments := cs, systemCommentTypeProperty := none
    threadContextFilePath := none, threadStatus := some 1 }

/-- A TypeScript file change as produced by `getPullRequestChanges` on
`tsEntry` under `baseEnv`. -/
def sampleFileChange : FileChange :=
  { fileName := "/src/a.ts", changeContent := "let x = 1;", changeType := 2
    originalPath := none, language := some "TypeScript" }

/-! ## Claim theorems -/

/-- C6: for every incoming event whose `eventType` is not
`"git.pullrequest.created"`, the handler returns the ignored outcome with
HTTP status 200 and performs zero network calls of any kind (no pull-request
fetch, no thread fetch, no iteration/change/blob fetch, no completion call,
no post). -/
theorem ignoredEvent_no_network_calls (env : Env) (payload : PullRequestPayload)
    (h : payload.eventType ≠ "git.pullrequest.created") :
    pullRequestTrigger env payload =
      { status := 200
        body := "Event ignored - not a pull request creation event"
        effects := Effects.zero } := by
  simp [pullRequestTrigger, h]

/-- Witness for C6 at a concrete non-creation event. -/
theorem ignoredEvent_no_network_calls_witness :
    pullRequestTrigger baseEnv payloadUpdated =
      { status := 200
        body := "Event ignored - not a pull request creation event"
        effects := Effects.zero } :=
  ignoredEvent_no_network_calls baseEnv payloadUpdated (by decide)

/-- C7: when a run reaches the changed-files step and the fetch yields zero
changed files, no completion request is issued (`llmCalls = 0`), nothing is
posted, and the outcome is the 200 "No changes to review" response (the
code's rendering of "skipped: no changes"). -/
theorem noChanges_skips_generator (env : Env) (payload : PullRequestPayload)
    (pr : GitPullRequest) (tf itf cf bf : Nat)
    (hev : payload.eventType = "git.pullrequest.created")
    (hpr : env.pullRequestResult = .ok pr)
    (hcom : getPullRequestComments env pr = (.ok [], tf))
    (hch : getPullRequestChanges env pr = (.ok [], (itf, cf, bf))) :
    pullRequestTrigger env payload =
      { status := 200, body := "No changes to review"
        effects :=
          { prFetches := 1, threadFetches := tf, iterationFetches := itf
            changeFetches := cf, blobFetches := bf, threadGets := 0
            llmCalls := 0, posts := [] } } := by
  simp [pullRequestTrigger, hev, hpr, hcom, hch, doCodeReview]

/-- Witness for C7: a run with one iteration but an empty change-entry list. -/
theorem noChanges_skips_generator_witness :
    pullRequestTrigger { baseEnv with changesResult := .ok (some []) }
        payloadCreated =
      { status := 200, body := "No changes to review"
        effects :=
          { prFetches := 1, threadFetches := 1, iterationFetches := 1
            changeFetches := 1, blobFetches := 0, threadGets := 0
            llmCalls := 0, posts := [] } } :=
  noChanges_skips_generator { baseEnv with changesResult := .ok (some []) }
    payloadCreated samplePr 1 1 1 0 rfl rfl rfl rfl

/-- C2: `doCodeReview` is a total function into `String` (no failure of the
completion call reaches the caller), it returns the empty string on every
failure mode — thrown request, non-200 status, missing response body,
missing `choices` array, empty `choices` array — and on success it returns
the first completion choice's text (an absent text is rendered as the empty
string, exactly as `|| ""` does). -/
theorem doCodeReview_failure_empty_success_first (env : Env)
    (pr : GitPullRequest) (changes : List FileChange) (hne : changes ≠ []) :
    (∀ e, env.llm (prepareCodeReviewPrompt pr changes) = .error e →
        (doCodeReview env pr changes).1 = "") ∧
    (∀ r, env.llm (prepareCodeReviewPrompt pr changes) = .ok r →
      ((r.status ≠ 200 → (doCodeReview env pr changes).1 = "") ∧
       (r.data = none → (doCodeReview env pr changes).1 = "") ∧
       (∀ d, r.data = some d → d.choices = none →
          (doCodeReview env pr changes).1 = "") ∧
       (∀ d, r.data = some d → d.choices = some [] →
          (doCodeReview env pr changes).1 = "") ∧
       (∀ d c cs, r.data = some d → d.choices = some (c :: cs) →
          r.status = 200 →
          (doCodeReview env pr changes).1 =
            (c.message.bind fun m => m.content).getD ""))) := by
  have hlen : ¬ changes.length = 0 := by
    simpa using hne
  constructor
  · intro e he
    simp [doCodeReview, hlen, he]
  · intro r hr
    refine ⟨?_, ?_, ?_, ?_, ?_⟩
    · intro hst
      simp [doCodeReview, hlen, hr, hst]
    · intro hd
      rcases h200 : decide (r.status = 200) with _ | _
      · simp [doCodeReview, hlen, hr, of_decide_eq_false h200]
      · simp [doCodeReview, hlen, hr, of_decide_eq_true h200, hd]
    · intro d hd hc
      rcases h200 : decide (r.status = 200) with _ | _
      · simp [doCodeReview, hlen, hr, of_decide_eq_false h200]
      · simp [doCodeReview, hlen, hr, of_decide_eq_true h200, hd, hc]
    · intro d hd hc
      rcases h200 : decide (r.status = 200) with _ | _
      · simp [doCodeReview, hlen, hr, of_decide_eq_false h200]
      · simp [doCodeReview, hlen, hr, of_decide_eq_true h200, hd, hc]
    · intro d c cs hd hc hst
      simp [doCodeReview, hlen, hr, hst, hd, hc]

/-- Witness for C2: under `baseEnv` the completion succeeds and
`doCodeReview` returns the first choice's text. -/
theorem doCodeReview_failure_empty_success_first_witness :
    (doCodeReview baseEnv samplePr [sampleFileChange]).1 = "Great work" :=
  ((doCodeReview_failure_empty_success_first baseEnv samplePr
      [sampleFileChange] (by decide)).2 (okLlm "Great work") rfl).2.2.2.2
    { choices := some [{ message := some { content := some "Great work" } }] }
    { message := some { content := some "Great work" } } [] rfl rfl rfl

/-- C9: for every valid pull request, `addCommentToPullRequest` with an
absent (`null`/`undefined`) or empty content returns `null` and performs no
thread-creation or comment-creation call (and no thread read either); the
same holds for the string overload applied to the empty string, so a
bypassed caller-side empty check still cannot produce a posted comment. -/
theorem addComment_empty_content_returns_null (env : Env)
    (pr : GitPullRequest)
    (hr : repositoryInvalid pr = false) (hi : pullRequestIdInvalid pr = false) :
    (∀ opts : AddCommentOptions,
       opts.content = none ∨ opts.content = some "" →
       addCommentToPullRequest env pr (.options opts) = (.ok none, 0, [])) ∧
    addCommentToPullRequest env pr (.str "") = (.ok none, 0, []) := by
  constructor
  · intro opts h
    rcases h with h | h <;> simp [addCommentToPullRequest, hr, hi, h]
  · simp [addCommentToPullRequest, hr, hi]

/-- Witness for C9 at a concrete valid pull request and absent content. -/
theorem addComment_empty_content_returns_null_witness :
    addCommentToPullRequest baseEnv samplePr
        (.options
          { content := none, filePath := none, lineNumber := none
            parentCommentId := none, threadId := none }) =
      (.ok none, 0, []) :=
  (addComment_empty_content_returns_null baseEnv samplePr (by decide)
      (by decide)).1 _ (Or.inl rfl)

/-! ## Comment-list invariants (C10) -/

/-- Inversion: a comment kept by the loop body is not of system kind, is not
deleted, and has non-empty content. -/
theorem convertComment_some_inv {now : Nat} {t : CommentThread} {c : Comment}
    {pc : PullRequestComment} (h : convertComment now t c = some pc) :
    c.commentType ≠ some 3 ∧ c.isDeleted ≠ some true ∧
    ∃ s, c.content = some s ∧ s ≠ "" := by
  unfold convertComment at h
  split at h
  · exact absurd h (by simp)
  · split at h
    · exact absurd h (by simp)
    · next h3 h4 =>
      cases hc : c.content with
      | none => rw [hc] at h; exact absurd h (by simp)
      | some s =>
        rw [hc] at h
        by_cases hs : s = ""
        · simp [hs] at h
        · exact ⟨h3, h4, s, rfl, hs⟩

/-- Membership in the collected list comes from a non-system thread and a
comment the loop kept. -/
theorem mem_collectComments {now : Nat} {threads : List CommentThread}
    {pc : PullRequestComment} (h : pc ∈ collectComments now threads) :
    ∃ t ∈ threads, isSystemThread t = false ∧
      ∃ c ∈ t.comments, convertComment now t c = some pc := by
  unfold collectComments at h
  rw [List.mem_flatMap] at h
  obtain ⟨t, ht, hpc⟩ := h
  by_cases hsys : isSystemThread t
  · rw [if_pos hsys] at hpc; cases hpc
  · rw [if_neg hsys] at hpc
    by_cases hemp : t.comments.isEmpty
    · rw [if_pos hemp] at hpc; cases hpc
    · rw [if_neg hemp] at hpc
      rw [List.mem_filterMap] at hpc
      obtain ⟨c, hc, hconv⟩ := hpc
      exact ⟨t, ht, Bool.eq_false_iff.mpr hsys, c, hc, hconv⟩

/-- C10: every comment returned by `getPullRequestComments` originates from a
comment that is non-deleted, has non-empty content, is not of the system
comment kind, and lives in a thread whose `System.CommentType` property is
not `"system"`; and the returned list is sorted by creation date in
ascending order. -/
theorem getPullRequestComments_filtered_sorted (env : Env)
    (pr : GitPullRequest) (l : List PullRequestComment) (tf : Nat)
    (h : getPullRequestComments env pr = (.ok l, tf)) :
    (∀ pc ∈ l, ∃ ts, env.threadsResult = .ok ts ∧
       ∃ t ∈ ts, isSystemThread t = false ∧
         ∃ c ∈ t.comments,
           convertComment env.now t c = some pc ∧
           c.commentType ≠ some 3 ∧ c.isDeleted ≠ some true ∧
           ∃ s, c.content = some s ∧ s ≠ "") ∧
    l.Pairwise (fun a b => a.createdDate ≤ b.createdDate) := by
  unfold getPullRequestComments at h
  split at h
  · cases h
  · split at h
    · cases h
    · split at h
      · cases h
      · next threads hts =>
        split at h
        · cases h
          exact ⟨fun pc hpc => absurd hpc (by simp), List.Pairwise.nil⟩
        · cases h
          constructor
          · intro pc hpc
            rw [List.mem_insertionSort] at hpc
            obtain ⟨t, ht, hsys, c, hc, hconv⟩ := mem_collectComments hpc
            obtain ⟨h3, h4, s, hs, hsne⟩ := convertComment_some_inv hconv
            exact ⟨threads, hts, t, ht, hsys, c, hc, hconv, h3, h4, s, hs, hsne⟩
          · exact
              (List.sorted_insertionSort commentOrder
                (collectComments env.now threads)).imp fun hab => hab

/-- Witness for C10: a concrete environment with one kept comment among
system and contentless ones yields a provenance fact and a sorted list. -/
theorem getPullRequestComments_filtered_sorted_witness :
    ([{ id := 11, content := "please fix naming", author := "Alice"
        createdDate := 600, lastUpdatedDate := 600, commentStatus := some "1"
        filePath := none, threadId := 1, parentCommentId := none }] :
      List PullRequestComment).Pairwise
        (fun a b => a.createdDate ≤ b.createdDate) :=
  (getPullRequestComments_filtered_sorted
    { baseEnv with
        threadsResult :=
          .ok [mkThread [humanComment, systemComment], mkThread [emptyTextComment]] }
    samplePr
    [{ id := 11, content := "please fix naming", author := "Alice"
       createdDate := 600, lastUpdatedDate := 600, commentStatus := some "1"
       filePath := none, threadId := 1, parentCommentId := none }] 1 rfl).2

/-! ## The comment-based eligibility guard (C1) -/

/-- A qualifying human comment: kind text (1), not deleted, with non-empty
content, in a thread not marked as a system thread. -/
def QualifyingComment (ts : List CommentThread) : Prop :=
  ∃ t ∈ ts, isSystemThread t = false ∧
    ∃ c ∈ t.comments, c.commentType = some 1 ∧ c.isDeleted ≠ some true ∧
      ∃ s, c.content = some s ∧ s ≠ ""

/-- A text comment that is not deleted and has non-empty content is kept by
the loop body. -/
theorem convertComment_of_qualifying (now : Nat) (t : CommentThread)
    (c : Comment) (htype : c.commentType = some 1)
    (hdel : c.isDeleted ≠ some true) (s : String) (hcont : c.content = some s)
    (hs : s ≠ "") : ∃ pc, convertComment now t c = some pc := by
  unfold convertComment
  rw [if_neg (show ¬ c.commentType = some 3 by rw [htype]; simp), if_neg hdel,
    hcont]
  refine ⟨{ id := c.id.getD 0, content := s
            author :=
              match c.authorDisplayName with
              | none => "Unknown"
              | some a => if a = "" then "Unknown" else a
            createdDate := dateOrNow c.publishedDate now
            lastUpdatedDate := dateOrNow c.lastUpdatedDate now
            commentStatus :=
              match t.threadStatus with
              | none => none
              | some n => if n = 0 then none else some (toString n)
            filePath := t.threadContextFilePath
            threadId := t.id.getD 0
            parentCommentId := c.parentCommentId }, ?_⟩
  simp [hs]

/-- A qualifying comment makes the collected list non-empty. -/
theorem collectComments_ne_nil (now : Nat) (ts : List CommentThread)
    (hq : QualifyingComment ts) : collectComments now ts ≠ [] := by
  obtain ⟨t, ht, hsys, c, hc, htype, hdel, s, hcont, hs⟩ := hq
  obtain ⟨pc, hpc⟩ := convertComment_of_qualifying now t c htype hdel s hcont hs
  have hmem : pc ∈ collectComments now ts := by
    unfold collectComments
    rw [List.mem_flatMap]
    refine ⟨t, ht, ?_⟩
    rw [hsys]
    simp only [Bool.false_eq_true, if_false]
    rw [if_neg (by simp [List.isEmpty_eq_false.mpr (List.ne_nil_of_mem hc)])]
    exact List.mem_filterMap.mpr ⟨c, hc, hpc⟩
  exact List.ne_nil_of_mem hmem

/-- With a qualifying comment in the fetched threads, a successful
`getPullRequestComments` returns a non-empty list. -/
theorem getPullRequestComments_ok_pos (env : Env) (pr : GitPullRequest)
    (ts : List CommentThread) (hts : env.threadsResult = .ok ts)
    (hq : QualifyingComment ts) (l : List PullRequestComment) (tf : Nat)
    (h : getPullRequestComments env pr = (.ok l, tf)) : 0 < l.length := by
  unfold getPullRequestComments at h
  split at h
  · cases h
  · split at h
    · cases h
    · rw [hts] at h
      simp only [] at h
      have hne : ts ≠ [] := by
        obtain ⟨t, ht, -⟩ := hq
        exact List.ne_nil_of_mem ht
      rw [if_neg (by simp [List.isEmpty_eq_false.mpr hne])] at h
      cases h
      rw [List.length_insertionSort]
      exact List.length_pos.mpr (collectComments_ne_nil env.now ts hq)

/-- If every comment is system-generated (system kind, or in a thread marked
system), nothing is collected. -/
theorem collectComments_all_system (now : Nat) (ts : List CommentThread)
    (h : ∀ t ∈ ts, ∀ c ∈ t.comments,
        isSystemThread t = true ∨ c.commentType = some 3) :
    collectComments now ts = [] := by
  unfold collectComments
  rw [List.flatMap_eq_nil_iff]
  intro t ht
  by_cases hsys : isSystemThread t
  · rw [if_pos hsys]
  · rw [if_neg hsys]
    by_cases hemp : t.comments.isEmpty
    · rw [if_pos hemp]
    · rw [if_neg hemp, List.filterMap_eq_nil_iff]
      intro c hc
      rcases h t ht c hc with hsys' | htype
      · exact absurd hsys' (by simpa using hsys)
      · unfold convertComment
        rw [htype, if_pos rfl]

/-- For a valid pull request, `getPullRequestChanges` always performs exactly
one iteration fetch, whatever else happens. -/
theorem getPullRequestChanges_one_iterationFetch (env : Env)
    (pr : GitPullRequest) (hr : repositoryInvalid pr = false)
    (hi : pullRequestIdInvalid pr = false) :
    (getPullRequestChanges env pr).2.1 = 1 := by
  unfold getPullRequestChanges
  rw [hr, hi]
  simp only [Bool.false_eq_true, if_false]
  split
  · rfl
  · split
    · rfl
    · split
      · rfl
      · split
        · rfl
        · split <;> rfl

/-- C1 (amended): a non-deleted text comment with non-empty content in a
non-system thread makes the run stop before the changed-files step — no
iteration, change-list or blob fetch, no completion call, and nothing
posted; and system-generated comments alone never block: when every comment
is of system kind or sits in a system-marked thread, a run that reaches
the guard proceeds to fetch the changed files. -/
theorem textComment_blocks_review (env : Env) (payload : PullRequestPayload)
    (ts : List CommentThread) (hts : env.threadsResult = .ok ts) :
    (QualifyingComment ts →
      (pullRequestTrigger env payload).effects.iterationFetches = 0 ∧
      (pullRequestTrigger env payload).effects.changeFetches = 0 ∧
      (pullRequestTrigger env payload).effects.blobFetches = 0 ∧
      (pullRequestTrigger env payload).effects.llmCalls = 0 ∧
      (pullRequestTrigger env payload).effects.posts = []) ∧
    ((∀ t ∈ ts, ∀ c ∈ t.comments,
        isSystemThread t = true ∨ c.commentType = some 3) →
      payload.eventType = "git.pullrequest.created" →
      ∀ pr, env.pullRequestResult = .ok pr →
        repositoryInvalid pr = false → pullRequestIdInvalid pr = false →
        (pullRequestTrigger env payload).effects.iterationFetches = 1) := by
  constructor
  · intro hq
    unfold pullRequestTrigger
    split
    · exact ⟨rfl, rfl, rfl, rfl, rfl⟩
    · split
      · exact ⟨rfl, rfl, rfl, rfl, rfl⟩
      · next pr hpr =>
        split
        · exact ⟨rfl, rfl, rfl, rfl, rfl⟩
        · next comments tf hcom =>
          have hpos := getPullRequestComments_ok_pos env pr ts hts hq
            comments tf hcom
          rw [if_pos hpos]
          exact ⟨rfl, rfl, rfl, rfl, rfl⟩
  · intro hsysOnly hev pr hpr hrv hiv
    have hzero : collectComments env.now ts = [] :=
      collectComments_all_system env.now ts hsysOnly
    have hcom : getPullRequestComments env pr = (.ok [], 1) := by
      unfold getPullRequestComments
      rw [hrv, hiv]
      simp only [Bool.false_eq_true, if_false]
      rw [hts]
      simp only []
      by_cases hemp : ts.isEmpty
      · rw [if_pos hemp]
      · rw [if_neg hemp, hzero]
        rfl
    have hone := getPullRequestChanges_one_iterationFetch env pr hrv hiv
    unfold pullRequestTrigger
    rw [if_neg (by simp [hev]), hpr]
    simp only []
    rw [hcom]
    simp only [List.length_nil, gt_iff_lt, Nat.lt_irrefl, if_false]
    split
    · next e itf cf bf heq =>
      rw [heq] at hone
      simpa using hone
    · next changes itf cf bf heq =>
      rw [heq] at hone
      simp only [] at hone
      split
      · split
        · simpa using hone
        · simpa using hone
      · simpa using hone

/-- An environment whose pull request carries one human text comment. -/
def envBlocked : Env :=
  { baseEnv with threadsResult := .ok [mkThread [humanComment]] }

/-- Witness for C1 (amended): with a real human text comment present, the run
stops before fetching changed files — no completion call and no post. -/
theorem textComment_blocks_review_witness :
    (pullRequestTrigger envBlocked payloadCreated).effects.iterationFetches = 0 ∧
    (pullRequestTrigger envBlocked payloadCreated).effects.llmCalls = 0 ∧
    (pullRequestTrigger envBlocked payloadCreated).effects.posts = [] := by
  have h := (textComment_blocks_review envBlocked payloadCreated
      [mkThread [humanComment]] rfl).1
    ⟨mkThread [humanComment], by simp, rfl, humanComment, by simp [mkThread],
      rfl, by simp [humanComment], "please fix naming", rfl, by simp⟩
  exact ⟨h.1, h.2.2.2.1, h.2.2.2.2⟩

/-- The environment refuting C1 as stated: the only comment has kind text (1)
and is explicitly not deleted, but its `content` field is absent, so the
filtered list is empty and the run proceeds all the way to a posted
review. -/
def cexEnvC1 : Env :=
  { baseEnv with threadsResult := .ok [mkThread [emptyTextComment]] }

/-- A system-marked thread holding a real human text comment. -/
def systemMarkedThread : CommentThread :=
  { mkThread [humanComment] with systemCommentTypeProperty := some "system" }

/-- An environment whose only thread is system-marked but contains a
non-deleted text comment with content. -/
def cexEnvC1b : Env :=
  { baseEnv with threadsResult := .ok [systemMarkedThread] }

/-- Counterexample to C1 as stated: (a) a pull request whose threads contain
a comment of kind text that is not deleted, yet the handler does not stop —
it fetches the changed files, calls the completion endpoint and posts the
review (the code additionally requires non-empty content); (b) likewise
when the text comment has content but its thread is marked
`System.CommentType = "system"` (the code skips the whole thread). -/
theorem textComment_blocks_review_counterexample :
    (∃ t ∈ [mkThread [emptyTextComment]], ∃ c ∈ t.comments,
        c.commentType = some 1 ∧ c.isDeleted = some false) ∧
    cexEnvC1.threadsResult = .ok [mkThread [emptyTextComment]] ∧
    (pullRequestTrigger cexEnvC1 payloadCreated).effects.iterationFetches = 1 ∧
    (pullRequestTrigger cexEnvC1 payloadCreated).effects.llmCalls = 1 ∧
    (pullRequestTrigger cexEnvC1 payloadCreated).effects.posts =
      ["Great work"] ∧
    (∃ t ∈ [systemMarkedThread], ∃ c ∈ t.comments,
        c.commentType = some 1 ∧ c.isDeleted = some false ∧
        c.content = some "please fix naming") ∧
    cexEnvC1b.threadsResult = .ok [systemMarkedThread] ∧
    (pullRequestTrigger cexEnvC1b payloadCreated).effects.llmCalls = 1 ∧
    (pullRequestTrigger cexEnvC1b payloadCreated).effects.posts =
      ["Great work"] := by
  refine ⟨?_, rfl, ?_, ?_, ?_, ?_, rfl, ?_, ?_⟩ <;> decide

/-! ## Writes to the repository provider (C8) -/

/-- Case analysis of the string overload of `addCommentToPullRequest` on a
non-empty string: either a validation error with no write, or the one
`createThread` write (which may itself fail). -/
theorem addComment_str_cases (env : Env) (pr : GitPullRequest) (s : String)
    (hs : s ≠ "") :
    (addCommentToPullRequest env pr (.str s)).2.2 = [] ∨
    (∃ e, env.createThreadResult = .error e ∧
       addCommentToPullRequest env pr (.str s) = (.error e, 0, [s])) ∨
    addCommentToPullRequest env pr (.str s) = (.ok (some ()), 0, [s]) := by
  unfold addCommentToPullRequest
  split
  · left; rfl
  · split
    · left; rfl
    · simp only [if_neg hs]
      cases hct : env.createThreadResult with
      | error e => right; left; exact ⟨e, rfl, rfl⟩
      | ok u => right; right; rfl

/-- C8: posting the review is the only write toward the repository provider.
Every run either performed no write at all (`posts = []` — this covers the
ignored-event, comment-skip, no-changes/empty-review, and every fetch-error
outcome), or completed the publish step, or failed with HTTP 500 inside the
publish step itself because the thread-creation call threw. -/
theorem postComment_only_mutation (env : Env) (payload : PullRequestPayload) :
    (pullRequestTrigger env payload).effects.posts = [] ∨
    (pullRequestTrigger env payload).body =
      "Code review completed and added as a comment" ∨
    ((pullRequestTrigger env payload).status = 500 ∧
      ∃ e, env.createThreadResult = .error e) := by
  unfold pullRequestTrigger
  split
  · left; rfl
  · split
    · left; rfl
    · next pr hpr =>
      split
      · left; rfl
      · split
        · left; rfl
        · split
          · left; rfl
          · next changes itf cf bf heq =>
            split
            · next crr lc hrev =>
              split
              · next hne =>
                split
                · next e2 tg ps hadd =>
                  rcases addComment_str_cases env pr crr hne
                    with h | ⟨e', he', h⟩ | h
                  · rw [hadd] at h
                    left; exact h
                  · right; right; exact ⟨rfl, e', he'⟩
                  · rw [hadd] at h
                    exact absurd h (by simp)
                · right; left; rfl
              · left; rfl

/-! ## Empty-review outcome (C5) -/

/-- C5 (amended): when the run passes the eligibility check and the Review
Generator returns the empty string — for whatever reason — no comment is
posted; but the outcome is the same 200 "No changes to review" response
that a zero-change run produces, not a distinct "skipped: empty review"
outcome. -/
theorem emptyReview_posts_nothing (env : Env) (payload : PullRequestPayload)
    (pr : GitPullRequest) (tf itf cf bf lc : Nat)
    (changes : List FileChange)
    (hev : payload.eventType = "git.pullrequest.created")
    (hpr : env.pullRequestResult = .ok pr)
    (hcom : getPullRequestComments env pr = (.ok [], tf))
    (hch : getPullRequestChanges env pr = (.ok changes, (itf, cf, bf)))
    (hrev : doCodeReview env pr changes = ("", lc)) :
    pullRequestTrigger env payload =
      { status := 200, body := "No changes to review"
        effects :=
          { prFetches := 1, threadFetches := tf, iterationFetches := itf
            changeFetches := cf, blobFetches := bf, threadGets := 0
            llmCalls := lc, posts := [] } } := by
  simp [pullRequestTrigger, hev, hpr, hcom, hch, hrev]

/-- An environment where the pull request is eligible, has one changed file,
and the completion call succeeds but returns an empty message text. -/
def cexEnvEmptyReview : Env :=
  { baseEnv with llm := fun _ => .ok (okLlm "") }

/-- An environment where the pull request is eligible and the change-entry
list is empty. -/
def cexEnvNoChanges : Env :=
  { baseEnv with changesResult := .ok (some []) }

/-- Witness for C5 (amended), instantiated at the empty-completion
environment. -/
theorem emptyReview_posts_nothing_witness :
    pullRequestTrigger cexEnvEmptyReview payloadCreated =
      { status := 200, body := "No changes to review"
        effects :=
          { prFetches := 1, threadFetches := 1, iterationFetches := 1
            changeFetches := 1, blobFetches := 1, threadGets := 0
            llmCalls := 1, posts := [] } } :=
  emptyReview_posts_nothing cexEnvEmptyReview payloadCreated samplePr
    1 1 1 1 1 [sampleFileChange] rfl rfl rfl rfl rfl

/-- Counterexample to C5 as stated: the empty-review skip produces a response
that is byte-for-byte identical to the zero-changes skip ("No changes to
review", status 200), so the two outcomes are not distinguishable.  In the
first run the generator was called (one completion call) and returned the
empty string; in the second there were zero changed files and no
completion call was made. -/
theorem emptyReview_distinct_outcome_counterexample :
    (pullRequestTrigger cexEnvEmptyReview payloadCreated).body =
      (pullRequestTrigger cexEnvNoChanges payloadCreated).body ∧
    (pullRequestTrigger cexEnvEmptyReview payloadCreated).status =
      (pullRequestTrigger cexEnvNoChanges payloadCreated).status ∧
    (pullRequestTrigger cexEnvEmptyReview payloadCreated).effects.llmCalls = 1 ∧
    (pullRequestTrigger cexEnvEmptyReview payloadCreated).effects.posts = [] ∧
    (pullRequestTrigger cexEnvNoChanges payloadCreated).effects.llmCalls = 0 ∧
    (pullRequestTrigger cexEnvEmptyReview payloadCreated).body =
      "No changes to review" := by
  refine ⟨?_, ?_, ?_, ?_, ?_, ?_⟩ <;> decide

/-! ## Per-file fetch failure (C3) -/

/-- C3 (amended): a per-file content-fetch failure does not abort the batch —
`getPullRequestChanges` still returns `ok` — but the failed file is
silently omitted from the returned list (the `FileChange` record has no
error marker at all): its entry contributes nothing, the remaining entries
are processed unchanged, and the failed fetch is still attempted (counted
once). -/
theorem fetchFailure_omits_file (env : Env) (ch : ChangeEntry) (p err : String)
    (hp : ch.itemPath = some p) (hne : p ≠ "")
    (hprog : (identifyFileLanguage p).isProgrammingFile = true)
    (hdel : ch.changeType ≠ some deleteChangeType)
    (hblob : env.blob (ch.objectId.getD "") = .error err) :
    processChangeEntry env ch = (none, 1) ∧
    (∀ entries, (processChangeEntries env (ch :: entries)).1 =
       (processChangeEntries env entries).1) ∧
    (∀ pr i is iid entries,
       repositoryInvalid pr = false → pullRequestIdInvalid pr = false →
       env.iterationsResult = .ok (i :: is) →
       ((i :: is).getLast (by simp)).id = some iid → iid ≠ 0 →
       env.changesResult = .ok (some (ch :: entries)) →
       getPullRequestChanges env pr =
         (.ok (processChangeEntries env entries).1,
          (1, 1, 1 + (processChangeEntries env entries).2))) := by
  have h1 : processChangeEntry env ch = (none, 1) := by
    simp [processChangeEntry, hp, hne, hprog, hdel, hblob]
  refine ⟨h1, ?_, ?_⟩
  · intro entries
    simp [processChangeEntries, h1]
  · intro pr i is iid entries hrv hiv hits hlast hiid hch
    unfold getPullRequestChanges
    rw [hrv, hiv]
    simp only [Bool.false_eq_true, if_false]
    rw [hits]
    simp only []
    rw [hlast]
    simp only []
    rw [if_neg hiid, hch]
    simp only [processChangeEntries, h1]

/-- The environment refuting C3 as stated: two TypeScript changes, the blob
fetch fails for the first and succeeds for the second. -/
def cexEnvFetchFail : Env :=
  { baseEnv with
      changesResult := .ok (some [tsEntry, tsEntryB])
      blob := fun oid => if oid = "oidB" then .ok "good" else .error "network error" }

/-- Witness for C3 (amended): the failing TypeScript entry of
`cexEnvFetchFail` contributes nothing but one attempted fetch. -/
theorem fetchFailure_omits_file_witness :
    processChangeEntry cexEnvFetchFail tsEntry = (none, 1) :=
  (fetchFailure_omits_file cexEnvFetchFail tsEntry "/src/a.ts" "network error"
    rfl (by decide) (by decide) (by decide) rfl).1

/-- Counterexample to C3 as stated: the content fetch for `/src/a.ts` fails,
the batch is not aborted, but the returned list contains only `/src/b.ts` —
the failed file does not appear as a `FileChange` with an error marker, it
is silently omitted (both fetches were attempted: blob count is 2). -/
theorem fetchFailure_errorMarker_counterexample :
    cexEnvFetchFail.blob "oidA" = .error "network error" ∧
    getPullRequestChanges cexEnvFetchFail samplePr =
      (.ok [{ fileName := "/src/b.ts", changeContent := "good", changeType := 2
              originalPath := none, language := some "TypeScript" }],
       (1, 1, 2)) ∧
    (∀ fc ∈ [({ fileName := "/src/b.ts", changeContent := "good"
                changeType := 2, originalPath := none
                language := some "TypeScript" } : FileChange)],
       fc.fileName ≠ "/src/a.ts") := by
  refine ⟨rfl, ?_, ?_⟩ <;> decide

/-! ## Non-programming files and the prompt (C4) -/

/-- The needle occurs somewhere inside the haystack; the formalisation of "a
string appears in the prompt". -/
def promptMentions (hay needle : String) : Prop :=
  needle.toList <:+: hay.toList

instance (hay needle : String) : Decidable (promptMentions hay needle) :=
  List.decidableInfix needle.toList hay.toList

/-- The per-file block appended sequentially over an appended list splits. -/
theorem fileBlocks_append (l1 l2 : List FileChange) :
    fileBlocks (l1 ++ l2) = fileBlocks l1 ++ fileBlocks l2 := by
  induction l1 with
  | nil => simp [fileBlocks]
  | cons f fs ih => simp [fileBlocks, ih, String.append_assoc]

/-- C4 (amended): a changed file whose extension is not a key of
`LANGUAGE_EXTENSIONS` is dropped from the change list before the prompt is
built — its entry yields no `FileChange` and no content fetch, and removing
all such entries leaves the processing of the remaining entries unchanged
(so a non-programming file's presence never affects eligibility or the
generated review); every `FileChange` whose detected language is not the
literal `"Unknown"` is rendered into the prompt with its path, language tag
and content.  (Markdown is a recognized extension: `.md` maps to
`"Markdown"`, so a file such as `b.md` is included, not excluded.) -/
theorem nonProgramming_excluded_from_prompt (env : Env) :
    (∀ ch p, ch.itemPath = some p →
       (identifyFileLanguage p).isProgrammingFile = false →
       processChangeEntry env ch = (none, 0)) ∧
    (∀ entries, processChangeEntries env entries =
       processChangeEntries env (entries.filter fun ch =>
         match ch.itemPath with
         | none => false
         | some p => (p != "") && (identifyFileLanguage p).isProgrammingFile)) ∧
    (∀ pr changes f, f ∈ changes → f.language ≠ some "Unknown" →
       ∃ pre post, prepareCodeReviewPrompt pr changes =
         pre ++ ("File 1: " ++ f.fileName ++ " (" ++ optStr f.language ++
           ")\n" ++ "<ChangeContent>\n" ++ f.changeContent ++
           "</ChangeContent>\n\n") ++ post) := by
  refine ⟨?_, ?_, ?_⟩
  · intro ch p hp hprog
    by_cases hne : p = ""
    · simp [processChangeEntry, hp, hne]
    · simp [processChangeEntry, hp, hne, hprog]
  · intro entries
    induction entries with
    | nil => rfl
    | cons ch rest ih =>
      cases hp : ch.itemPath with
      | none =>
        have h0 : processChangeEntry env ch = (none, 0) := by
          simp [processChangeEntry, hp]
        simp [List.filter_cons, hp, processChangeEntries, h0, ih]
      | some p =>
        by_cases hne : p = ""
        · have h0 : processChangeEntry env ch = (none, 0) := by
            simp [processChangeEntry, hp, hne]
          simp [List.filter_cons, hp, hne, processChangeEntries, h0, ih]
        · by_cases hprog : (identifyFileLanguage p).isProgrammingFile
          · have hkeep :
                (match ch.itemPath with
                 | none => false
                 | some p => (p != "") && (identifyFileLanguage p).isProgrammingFile) = true := by
              rw [hp]
              simp [hne, hprog]
            simp only [processChangeEntries, List.filter_cons, hkeep, if_true,
              processChangeEntries, ih]
          · have h0 : processChangeEntry env ch = (none, 0) := by
              simp [processChangeEntry, hp, hne, hprog]
            simp [List.filter_cons, hp, hne, hprog, processChangeEntries, h0, ih]
  · intro pr changes f hf hlang
    obtain ⟨l1, l2, rfl⟩ := List.append_of_mem hf
    refine ⟨"Perform a thorough code review focusing on best practices, potential bugs, security issues, and performance optimizations.\n\n" ++
      "Pull Request Title: " ++ optStr pr.title ++ "\n" ++
      "Description: " ++ descriptionOrDefault pr.description ++ "\n\n" ++
      "Files changed (" ++ toString (l1 ++ f :: l2).length ++ "):\n\n" ++
      fileBlocks l1, fileBlocks l2 ++ promptFooter, ?_⟩
    have hblock : fileBlock f =
        "File 1: " ++ f.fileName ++ " (" ++ optStr f.language ++ ")\n" ++
        "<ChangeContent>\n" ++ f.changeContent ++ "</ChangeContent>\n\n" := by
      unfold fileBlock
      rw [if_neg hlang]
    simp only [prepareCodeReviewPrompt, fileBlocks_append, fileBlocks, hblock,
      String.append_assoc]

/-- Witness for C4 (amended): the TypeScript change is rendered into the
prompt with path, language and content. -/
theorem nonProgramming_excluded_from_prompt_witness :
    ∃ pre post, prepareCodeReviewPrompt samplePr [sampleFileChange] =
      pre ++ ("File 1: " ++ sampleFileChange.fileName ++ " (" ++
        optStr sampleFileChange.language ++ ")\n" ++ "<ChangeContent>\n" ++
        sampleFileChange.changeContent ++ "</ChangeContent>\n\n") ++ post :=
  (nonProgramming_excluded_from_prompt baseEnv).2.2 samplePr [sampleFileChange]
    sampleFileChange (by simp) (by simp [sampleFileChange])

/-- The environment for the C4 counterexample: the change entries are a
Markdown file and a lockfile. -/
def cexEnvMd : Env :=
  { baseEnv with
      changesResult := .ok (some [mdEntry, lockEntry])
      blob := fun _ => .ok "# notes" }

/-- The `FileChange` built for `/docs/b.md`. -/
def mdFileChange : FileChange :=
  { fileName := "/docs/b.md", changeContent := "# notes", changeType := 1
    originalPath := none, language := some "Markdown" }

set_option maxRecDepth 8000 in
/-- Counterexample to C4 as stated: a Markdown file such as `b.md` is NOT
treated as a non-programming file — `.md` is a key of
`LANGUAGE_EXTENSIONS` — so it survives the change-list filter and its path,
language tag and full content all appear in the code-bearing section of the
prompt. -/
theorem markdown_excluded_counterexample :
    identifyFileLanguage "/docs/b.md" =
      { language := some "Markdown", isProgrammingFile := true } ∧
    identifyFileLanguage "/yarn.lock" =
      { language := none, isProgrammingFile := false } ∧
    getPullRequestChanges cexEnvMd samplePr = (.ok [mdFileChange], (1, 1, 1)) ∧
    promptMentions (prepareCodeReviewPrompt samplePr [mdFileChange])
      "/docs/b.md (Markdown)" ∧
    promptMentions (prepareCodeReviewPrompt samplePr [mdFileChange])
      "<ChangeContent>\n# notes</ChangeContent>" := by
  refine ⟨?_, ?_, ?_, ?_, ?_⟩ <;> decide

end CodeReview
